import Mathlib

/-!
Verification of the pyHEMCO core against its specification.

This file shallowly embeds the two core components of the pyHEMCO
repository:

* `pyhemco/timetools.py` — the `DatetimeSlicer` timestamp recurrence
  parser (`_parse_fmt`, `from_string`, `to_string`, `__init__` with
  `_change_timespan`, `__iter__`);
* `pyhemco/datatypes.py` — the `ObjectCollection` ordered, typed,
  deduplicated container (`__init__`, `add`, `remove`, `replace`,
  `filter`, `sorted`, `index`, `_create_subcollection`,
  `_check_read_only`).

The code base is Python 2 only (`pyhemco/__init__.py` raises ImportError
on Python 3), so the built-in `filter` used by `ObjectCollection.filter`
is eager: each lambda in the keyword-constraint loop is fully applied
inside its own loop iteration.

Python exceptions are modelled by the inductive `PyErr`; every raise
site of the source gets its own constructor.  Stateful code is modelled
by explicit state passing: an `ObjectCollection` instance is a `Coll`
value, the heap of live collection objects is a `World` (a list of
`Coll`, addresses are indices), and every method returns its result
together with the updated world and the trace of callback invocations.
-/

/-- Python exceptions raised by the embedded code, one constructor per
raise site (the comment on each names the Python exception class). -/
inductive PyErr where
  /-- ValueError "Not allowed to add an object which is already in the collection". -/
  | duplicate : PyErr
  /-- TypeError "Cannot add object of class '{0}' in a collection of only '{1}' objects";
  the two tags are the class of the rejected object and the reference class. -/
  | typeMismatch (objCls refCls : Nat) : PyErr
  /-- ValueError "Operation not permitted on read-only collections". -/
  | readOnly : PyErr
  /-- TypeError "Invalid collection: the collection must be returned by the 'filter' or 'get' method". -/
  | noParent : PyErr
  /-- TypeError "Invalid collection: the collection must be returned by the 'get' method". -/
  | notSingleton : PyErr
  /-- ValueError raised by Python list.remove / list.index when the value is absent. -/
  | notInList : PyErr
  /-- IndexError from indexing an empty list. -/
  | indexError : PyErr
  /-- ValueError raised by Python int() on a non-numeric literal. -/
  | invalidLiteral (s : String) : PyErr
  /-- TypeError from range(*args) applied to an unsupported argument list. -/
  | badRangeArgs : PyErr
  /-- ValueError "Invalid string '{fmt}'" raised by DatetimeSlicer.from_string. -/
  | invalidString (fmt : String) : PyErr
  /-- ValueError "found empty list with non empty list(s) for shorter time spans"
  raised by DatetimeSlicer._change_timespan. -/
  | inconsistentGranularity : PyErr
  /-- TypeError raised when cls(*args) is called with `given` positional
  arguments while DatetimeSlicer.__init__ expects exactly 4. -/
  | arityMismatch (given : Nat) : PyErr
  /-- TypeError raised by str.join applied to a list of ints
  (DatetimeSlicer.to_string joins the integer field values directly). -/
  | joinTypeError : PyErr
  /-- TypeError "__init__() got an unexpected keyword argument '{kw}'" raised by a
  call passing a keyword that the callee does not declare. -/
  | unexpectedKeyword (kw : String) : PyErr
deriving DecidableEq, Repr

/-- Python exception class of each modelled error. -/
def PyErr.pyClass : PyErr → String
  | .duplicate => "ValueError"
  | .typeMismatch _ _ => "TypeError"
  | .readOnly => "ValueError"
  | .noParent => "TypeError"
  | .notSingleton => "TypeError"
  | .notInList => "ValueError"
  | .indexError => "IndexError"
  | .invalidLiteral _ => "ValueError"
  | .badRangeArgs => "TypeError"
  | .invalidString _ => "ValueError"
  | .inconsistentGranularity => "ValueError"
  | .arityMismatch _ => "TypeError"
  | .joinTypeError => "TypeError"
  | .unexpectedKeyword _ => "TypeError"

/-! ## Embedding of `pyhemco/timetools.py` -/

/-- Recurrence frequency constants of `dateutil.rrule` as used by
`DatetimeSlicer.__init__` (HOURLY, DAILY, MONTHLY, YEARLY); the matching
`relativedelta` interval always has the same granularity, so a single
tag stands for both `_freq` and `_interval`. -/
inductive Freq where
  | hourly : Freq
  | daily : Freq
  | monthly : Freq
  | yearly : Freq
deriving DecidableEq, Repr

/-- State of a constructed `DatetimeSlicer`: the four field lists plus
the slice duration data set by `__init__`.  `freq` and `interval` are
`none` exactly when the source sets them to Python `None` (the
all-wildcard case). -/
structure DatetimeSlicer where
  years : List Nat
  months : List Nat
  days : List Nat
  hours : List Nat
  freq : Option Freq
  interval : Option Freq
deriving DecidableEq, Repr

/-- Mutable attributes of `self` threaded through `__init__`:
`_interval`, `_freq` and `_has_emptylist`. -/
structure TsState where
  interval : Option Freq
  freq : Option Freq
  hasEmptyList : Bool
deriving DecidableEq, Repr

/-- Embeds `DatetimeSlicer._change_timespan`: the guard
`if not self._has_emptylist: raise ValueError(...)` fires whenever the
flag is still false; only afterwards are `_interval`, `_freq` and
`_has_emptylist` assigned. -/
def changeTimespan (s : TsState) (freq interval : Option Freq) :
    Except PyErr TsState :=
  if !s.hasEmptyList then
    .error .inconsistentGranularity
  else
    .ok { interval := interval, freq := freq, hasEmptyList := true }

/-- Embeds `DatetimeSlicer.__init__(years, months, days, hours)`:
starts from an hourly slice duration with `_has_emptylist = False`, then
widens once for each empty field list, testing `hours`, `days`,
`months`, `years` in that order. -/
def mkSlicer (years months days hours : List Nat) :
    Except PyErr DatetimeSlicer := do
  let s0 : TsState :=
    { interval := some .hourly, freq := some .hourly, hasEmptyList := false }
  let s1 ← if hours.isEmpty then changeTimespan s0 (some .daily) (some .daily)
           else pure s0
  let s2 ← if days.isEmpty then changeTimespan s1 (some .monthly) (some .monthly)
           else pure s1
  let s3 ← if months.isEmpty then changeTimespan s2 (some .yearly) (some .yearly)
           else pure s2
  let s4 ← if years.isEmpty then changeTimespan s3 none none
           else pure s3
  pure { years := years, months := months, days := days, hours := hours,
         freq := s4.freq, interval := s4.interval }

/-- Embeds Python `s.split(sep)` for a one-character separator, the
only kind `_parse_fmt` uses (`/`, `,` and `-`), working on the string's
character list. -/
def splitOnChar (sep : Char) : List Char → List (List Char)
  | [] => [[]]
  | c :: rest =>
      let r := splitOnChar sep rest
      if c = sep then [] :: r
      else
        match r with
        | [] => [[c]]
        | g :: gs => (c :: g) :: gs

/-- Embeds Python `int(s)` on the strings this grammar can produce: a
non-empty all-digit string parses, anything else raises ValueError. -/
def pyInt (s : List Char) : Except PyErr Nat :=
  if s ≠ [] ∧ s.all Char.isDigit then
    .ok (s.foldl (fun acc c => acc * 10 + (c.toNat - 48)) 0)
  else
    .error (.invalidLiteral (String.mk s))

/-- Embeds Python `range(*args)` for the argument lists `_parse_fmt`
can build: `range(a, b)` is `a, a+1, …, b-1`; other arities raise. -/
def pyRange (args : List Nat) : Except PyErr (List Nat) :=
  match args with
  | [a, b] => .ok ((List.range (b - a)).map (a + ·))
  | _ => .error .badRangeArgs

/-- Embeds the body of the inner loop of `DatetimeSlicer._parse_fmt`
for one comma-separated chunk `val`: try `int(val)`; on ValueError,
split on `-`, parse every part as int, add one to element 1 (IndexError
when there is no element 1) and expand with `range`. -/
def parseChunk (val : List Char) : Except PyErr (List Nat) :=
  match pyInt val with
  | .ok n => .ok [n]
  | .error _ => do
      let minMax ← (splitOnChar '-' val).mapM pyInt
      match minMax with
      | a :: b :: rest => pyRange (a :: (b + 1) :: rest)
      | _ => .error .indexError

/-- Embeds the per-field work of `DatetimeSlicer._parse_fmt`: split the
field on `,` and concatenate the parsed chunks. -/
def parseField (elem : List Char) : Except PyErr (List Nat) := do
  let chunks ← (splitOnChar ',' elem).mapM parseChunk
  pure chunks.flatten

/-- Embeds `DatetimeSlicer._parse_fmt`: split on `/`; a field equal to
the wildcard `*` is skipped by `continue` and contributes NO entry to
`args` (the source appends nothing for it); every other field is parsed
with `parseField`. -/
def parseFmt (fmt : String) : Except PyErr (List (List Nat)) :=
  (splitOnChar '/' fmt.data).foldlM
    (fun acc strElem =>
      if strElem = ['*'] then pure acc
      else do
        let f ← parseField strElem
        pure (acc ++ [f]))
    []

/-- Reports whether a modelled exception would be caught by
`except (ValueError, TypeError)`. -/
def caughtByFromString (e : PyErr) : Bool :=
  e.pyClass = "ValueError" || e.pyClass = "TypeError"

/-- Embeds `DatetimeSlicer.from_string`: run `_parse_fmt` inside
`try/except (ValueError, TypeError)` re-raising ValueError "Invalid
string"; then call `cls(*args)` OUTSIDE the try block, which raises a
bare TypeError when `args` does not have exactly the 4 positional
arguments `__init__` expects. -/
def fromString (fmt : String) : Except PyErr DatetimeSlicer :=
  match parseFmt fmt with
  | .error e =>
      if caughtByFromString e then .error (.invalidString fmt)
      else .error e
  | .ok args =>
      match args with
      | [y, m, d, h] => mkSlicer y m d h
      | l => .error (.arityMismatch l.length)

/-- Python `min` over a non-empty list of ints (0 for the empty list,
which the source never reaches on that branch). -/
def pyMin : List Nat → Nat
  | [] => 0
  | x :: xs => xs.foldl Nat.min x

/-- Python `max` over a non-empty list of ints. -/
def pyMax : List Nat → Nat
  | [] => 0
  | x :: xs => xs.foldl Nat.max x

/-- Embeds the rendering of one field inside `DatetimeSlicer.to_string`:
empty list gives the wildcard; a list equal to
`range(min(l), max(l)+1)` renders as "min-max"; any other list reaches
`','.join(dt_elem)` whose elements are ints, which raises TypeError in
Python (str.join accepts only strings). -/
def fieldToString (l : List Nat) : Except PyErr String :=
  if l = [] then .ok "*"
  else if l = (List.range (pyMax l + 1 - pyMin l)).map (pyMin l + ·) then
    .ok (toString (pyMin l) ++ "-" ++ toString (pyMax l))
  else
    .error .joinTypeError

/-- Embeds `DatetimeSlicer.to_string`: render the four fields in
`years, months, days, hours` order and join them with `/`. -/
def toStringSlicer (s : DatetimeSlicer) : Except PyErr String := do
  let ys ← fieldToString s.years
  let ms ← fieldToString s.months
  let ds ← fieldToString s.days
  let hs ← fieldToString s.hours
  pure (ys ++ "/" ++ ms ++ "/" ++ ds ++ "/" ++ hs)

/-- Python `datetime.datetime` truncated to the hour, the resolution at
which `DatetimeSlicer` works (minutes and seconds are always 0 here). -/
structure DateTime where
  year : Nat
  month : Nat
  day : Nat
  hour : Nat
deriving DecidableEq, Repr

/-- Value of Python `datetime.min` at hour resolution. -/
def DateTime.minValue : DateTime := { year := 1, month := 1, day := 1, hour := 0 }

/-- Value of Python `datetime.max` at hour resolution. -/
def DateTime.maxValue : DateTime := { year := 9999, month := 12, day := 31, hour := 23 }

/-- Gregorian leap-year test. -/
def isLeap (y : Nat) : Bool :=
  (y % 4 = 0 && y % 100 ≠ 0) || y % 400 = 0

/-- Number of days of a month. -/
def daysInMonth (y m : Nat) : Nat :=
  if m = 2 then (if isLeap y then 29 else 28)
  else if m = 4 || m = 6 || m = 9 || m = 11 then 30
  else 31

/-- Days from the start of year `y` to the start of month `m` of `y`. -/
def daysBeforeMonth (y m : Nat) : Nat :=
  ((List.range m).filter (fun k => 1 ≤ k)).foldl
    (fun acc k => acc + daysInMonth y k) 0

/-- Absolute hour index of a date-time (hours since 0001-01-01 00:00),
used to compare date-times and to measure spans. -/
def DateTime.absHour (t : DateTime) : Nat :=
  let yearsBefore := t.year - 1
  let leapDays := yearsBefore / 4 - yearsBefore / 100 + yearsBefore / 400
  ((yearsBefore * 365 + leapDays + daysBeforeMonth t.year t.month
     + (t.day - 1)) * 24) + t.hour

/-- Chronological order on date-times. -/
def DateTime.le (a b : DateTime) : Bool :=
  a.absHour ≤ b.absHour

/-- Adds one hour to a date-time, carrying into day, month and year
exactly as Python `datetime + relativedelta(hours=+1)` does. -/
def DateTime.nextHour (t : DateTime) : DateTime :=
  if t.hour + 1 ≤ 23 then { t with hour := t.hour + 1 }
  else if t.day + 1 ≤ daysInMonth t.year t.month then
    { t with hour := 0, day := t.day + 1 }
  else if t.month + 1 ≤ 12 then
    { t with hour := 0, day := 1, month := t.month + 1 }
  else
    { year := t.year + 1, month := 1, day := 1, hour := 0 }

/-- Adds the fixed slice duration `interval` to a date-time
(`relativedelta` of one hour, day, month or year).  Adding one day,
month or year is unreachable from any constructed slicer (see
`mkSlicer_freq_hourly`) but is modelled for totality. -/
def addInterval (iv : Option Freq) (t : DateTime) : DateTime :=
  match iv with
  | some .hourly => t.nextHour
  | some .daily =>
      if t.day + 1 ≤ daysInMonth t.year t.month then { t with day := t.day + 1 }
      else if t.month + 1 ≤ 12 then { t with day := 1, month := t.month + 1 }
      else { t with year := t.year + 1, month := 1, day := 1 }
  | some .monthly =>
      if t.month + 1 ≤ 12 then { t with month := t.month + 1 }
      else { t with year := t.year + 1, month := 1 }
  | some .yearly => { t with year := t.year + 1 }
  | none => t

/-- Hour-by-hour enumeration from `cur` while `cur ≤ untilDt`, with
enough fuel to cover the whole span.  Models the occurrence stream of a
`dateutil.rrule.rrule(HOURLY, dtstart=..., until=...)` before the
`bymonth`/`bymonthday`/`byhour` filters are applied. -/
def hourlyStream : Nat → DateTime → DateTime → List DateTime
  | 0, _, _ => []
  | fuel + 1, cur, untilDt =>
      if cur.le untilDt then cur :: hourlyStream fuel cur.nextHour untilDt
      else []

/-- Occurrences of `dateutil.rrule.rrule(HOURLY, dtstart, until,
bymonth, bymonthday, byhour)`: every hour-aligned instant between
`dtstart` and `until` whose month, month-day and hour belong to the
given sets. -/
def rruleHourly (dtstart untilDt : DateTime)
    (bymonth bymonthday byhour : List Nat) : List DateTime :=
  (hourlyStream (untilDt.absHour + 1 - dtstart.absHour) dtstart untilDt).filter
    (fun t => bymonth.contains t.month && bymonthday.contains t.day
              && byhour.contains t.hour)

/-- Embeds `DatetimeSlicer.__iter__` as run by `list(...)`.  The source
calls `rrule.rrule(self._freq, dstart=from_dt, until=to_dt, ...)`:
`dstart` is not a parameter of `dateutil.rrule.rrule.__init__` (the
parameter is spelled `dtstart`), so the very first rrule construction
raises TypeError and no pair is ever yielded when `self.years` is
non-empty. -/
def iterSlices (s : DatetimeSlicer) :
    Except PyErr (List (DateTime × DateTime)) :=
  if s.years = [] then
    .ok [(DateTime.minValue, DateTime.maxValue)]
  else
    .error (.unexpectedKeyword "dstart")

/-- Embeds `DatetimeSlicer.__iter__` with the single keyword `dstart`
corrected to the `dtstart` parameter that `dateutil.rrule.rrule`
declares; everything else is the source loop verbatim: for each year in
list order, default each empty field list (`months or (1,)` …), build
`from_dt`/`to_dt` from the per-field min/max, enumerate the rrule
occurrences and pair each with itself plus `self._interval`.  Only the
HOURLY frequency is reachable from a constructed slicer
(`mkSlicer_freq_hourly`); the unreachable frequencies yield no pairs
here. -/
def iterSlicesDtstart (s : DatetimeSlicer) :
    Except PyErr (List (DateTime × DateTime)) :=
  if s.years = [] then
    .ok [(DateTime.minValue, DateTime.maxValue)]
  else
    match s.freq with
    | some .hourly =>
        .ok (s.years.flatMap (fun year =>
          let months := if s.months = [] then [1] else s.months
          let days := if s.days = [] then [1] else s.days
          let hours := if s.hours = [] then [0] else s.hours
          let fromDt : DateTime :=
            { year := year, month := pyMin months, day := pyMin days,
              hour := pyMin hours }
          let toDt : DateTime :=
            { year := year, month := pyMax months, day := pyMax days,
              hour := pyMax hours }
          (rruleHourly fromDt toDt months days hours).map
            (fun dt => (dt, addInterval s.interval dt))))
    | _ => .ok []

/-! ## Embedding of `pyhemco/datatypes.py` -/

/-- Record stored in an `ObjectCollection`.  Python objects are opaque
to the collection except for `==` comparison, `__class__`, and
`getattr`: a record is modelled by its class tag and its attribute
values (attribute names are indices).  Python `==` on the test records
(namedtuples) is value equality, modelled by structural equality.  The
model's universe of classes carries no subclass relation, so
`isinstance(obj, cls)` is class-tag equality. -/
structure Obj where
  cls : Nat
  attrs : List Nat
deriving DecidableEq, Repr

/-- Embeds Python `getattr(obj, name)` for the attribute names the
claims use (names are indices into `attrs`). -/
def Obj.getattr (o : Obj) (name : Nat) : Nat :=
  o.attrs.getD name 0

/-- Callback invocation recorded when `_callback_add` or
`_callback_remove` is not `None`. -/
inductive Event where
  | added (o : Obj) : Event
  | removed (o : Obj) : Event
deriving DecidableEq, Repr

/-- State of one `ObjectCollection` instance: `_ref_class` (a class tag
or Python `None`), `_list`, the presence of `_callback_add` and
`_callback_remove`, `_read_only`, and `_ref_collection` modelled as the
heap address of the reference collection (or `None`). -/
structure Coll where
  refClass : Option Nat
  objs : List Obj
  cbAdd : Bool
  cbRemove : Bool
  readOnly : Bool
  refColl : Option Nat
deriving DecidableEq, Repr

/-- Heap of live collection instances; a collection's address is its
index in the list. -/
abbrev World := List Coll

/-- Collection stored at address `a` (addresses used by the theorems
are always in range). -/
def collAt (w : World) (a : Nat) : Coll :=
  w.getD a { refClass := none, objs := [], cbAdd := false, cbRemove := false,
             readOnly := false, refColl := none }

/-- Embeds Python `list.insert(i, x)`: clamp a non-negative index to
the length, count a negative index from the end. -/
def pyInsert (i : Int) (x : Obj) (l : List Obj) : List Obj :=
  let pos : Nat := if i < 0 then (max 0 (l.length + i)).toNat
                   else min i.toNat l.length
  List.insertIdx pos x l

/-- Embeds `ObjectCollection.add(obj, index)` on the receiver's state.
Mirrors the source order: set `_ref_class` from the first object when
it is `None` (this happens BEFORE the read-only check), then
`_check_read_only`, then the `isinstance` check, then the membership
check, then the insertion (`index == -1` appends), then the add
callback.  Returns the result, the updated state and the callback
trace; on an exception the state reflects every assignment already
executed. -/
def pyAdd (c : Coll) (obj : Obj) (index : Int) :
    Except PyErr Unit × Coll × List Event :=
  let c1 := if c.refClass = none then { c with refClass := some obj.cls } else c
  if c1.readOnly then
    (.error .readOnly, c1, [])
  else
    match c1.refClass with
    | none => (.error (.typeMismatch obj.cls 0), c1, [])
    | some rc =>
        if obj.cls ≠ rc then
          (.error (.typeMismatch obj.cls rc), c1, [])
        else if obj ∈ c1.objs then
          (.error .duplicate, c1, [])
        else
          let objs' := if index = -1 then c1.objs ++ [obj]
                       else pyInsert index obj c1.objs
          ((.ok ()), { c1 with objs := objs' },
           if c1.cbAdd then [.added obj] else [])

/-- Embeds the `for obj in objects: self.add(obj)` loop of
`ObjectCollection.__init__`; an exception aborts the loop, keeping the
additions already made. -/
def pyInitLoop (c : Coll) : List Obj → Except PyErr Unit × Coll × List Event
  | [] => (.ok (), c, [])
  | o :: rest =>
      match pyAdd c o (-1) with
      | (.ok _, c', ev) =>
          let (r, c'', evs) := pyInitLoop c' rest
          (r, c'', ev ++ evs)
      | (.error e, c', ev) => (.error e, c', ev)

/-- Embeds `ObjectCollection.__init__(objects, callbacks, read_only,
ref_class)`: the instance starts with an empty list and
`_read_only = False`, every initial object goes through `add` (so the
callbacks fire per object), and `_read_only = read_only` is assigned
only after the loop — it is never reached when an add raises. -/
def pyInit (objects : List Obj) (cbAdd cbRemove : Bool) (readOnly : Bool)
    (refClass : Option Nat) : Except PyErr Unit × Coll × List Event :=
  let c0 : Coll := { refClass := refClass, objs := [], cbAdd := cbAdd,
                     cbRemove := cbRemove, readOnly := false, refColl := none }
  match pyInitLoop c0 objects with
  | (.ok _, c1, evs) => (.ok (), { c1 with readOnly := readOnly }, evs)
  | (.error e, c1, evs) => (.error e, c1, evs)

/-- Allocates a fresh `ObjectCollection` in the world (its address is
the previous world length). -/
def worldCreate (w : World) (objects : List Obj) (cbAdd cbRemove : Bool)
    (readOnly : Bool) (refClass : Option Nat) :
    Except PyErr Nat × World × List Event :=
  match pyInit objects cbAdd cbRemove readOnly refClass with
  | (.ok _, c, evs) => (.ok w.length, w ++ [c], evs)
  | (.error e, c, evs) => (.error e, w ++ [c], evs)

/-- Embeds `ObjectCollection._create_subcollection(sel_objects)`:
`cls(objects=sel_objects)` with all defaults (no callbacks, not
read-only, lazy `ref_class`), then `_ref_collection` is set to `self`
when `self._ref_collection is None` and to `self._ref_collection`
otherwise.  When the constructor raises, the assignment is never
reached. -/
def createSubcollection (w : World) (a : Nat) (selObjects : List Obj) :
    Except PyErr Nat × World × List Event :=
  match pyInit selObjects false false false none with
  | (.ok _, c, evs) =>
      let target := match (collAt w a).refColl with
                    | none => a
                    | some r => r
      (.ok w.length, w ++ [{ c with refColl := some target }], evs)
  | (.error e, c, evs) => (.error e, w ++ [c], evs)

/-- Predicate conjunction used below: a record passes when it satisfies
every predicate callable and every `attr_name=value` constraint. -/
def matchesAll (preds : List (Obj → Bool)) (cons : List (Nat × Nat))
    (o : Obj) : Bool :=
  preds.all (fun p => p o) && cons.all (fun c => o.getattr c.1 = c.2)

/-- Embeds `ObjectCollection.filter(*args, **kwargs)`: starting from
`self._list`, one (eager, Python 2) `filter` pass per predicate
callable, then one per keyword constraint, then
`_create_subcollection`. -/
def pyFilter (w : World) (a : Nat) (preds : List (Obj → Bool))
    (cons : List (Nat × Nat)) : Except PyErr Nat × World × List Event :=
  let afterPreds := preds.foldl (fun sel p => sel.filter p) (collAt w a).objs
  let selection := cons.foldl
    (fun sel c => sel.filter (fun o => o.getattr c.1 = c.2)) afterPreds
  createSubcollection w a selection

/-- Stable insertion of a record into a key-sorted list: the new record
goes before the first element whose key is not smaller, so records with
equal keys keep their relative order. -/
def insertByKey (key : Obj → Nat) (x : Obj) : List Obj → List Obj
  | [] => [x]
  | y :: ys => if key y < key x then y :: insertByKey key x ys else x :: y :: ys

/-- Stable ascending sort by key, modelling Python's stable
`sorted(self._list, key=key)`. -/
def pySortList (key : Obj → Nat) (l : List Obj) : List Obj :=
  l.foldr (insertByKey key) []

/-- Embeds `ObjectCollection.sorted(key)` for a key callable (the
attribute-name variant is the same with `key = getattr _ name`):
`sorted(self._list, key=key)` followed by `_create_subcollection`. -/
def pySorted (w : World) (a : Nat) (key : Obj → Nat) :
    Except PyErr Nat × World × List Event :=
  createSubcollection w a (pySortList key (collAt w a).objs)

/-- Embeds `ObjectCollection.index()`: require `_ref_collection`, then
`[ref._list.index(obj) for obj in self._list]`; Python `list.index`
raises ValueError when the object is absent. -/
def pyIndexSel (w : World) (a : Nat) : Except PyErr (List Nat) :=
  let c := collAt w a
  match c.refColl with
  | none => .error .noParent
  | some ra =>
      c.objs.mapM (fun o =>
        match (collAt w ra).objs.findIdx? (fun x => x == o) with
        | some i => .ok i
        | none => .error .notInList)

/-- Embeds the loop of `ObjectCollection.remove`: for each selected
object, `ref._list.remove(obj)` (first occurrence by equality, raising
ValueError when absent and keeping the removals already made), then the
reference collection's remove callback when it is set. -/
def removeLoop (w : World) (ra : Nat) :
    List Obj → Except PyErr Unit × World × List Event
  | [] => (.ok (), w, [])
  | o :: rest =>
      let rc := collAt w ra
      if o ∈ rc.objs then
        let w' := w.set ra { rc with objs := rc.objs.erase o }
        let ev := if rc.cbRemove then [Event.removed o] else []
        let (r, w'', evs) := removeLoop w' ra rest
        (r, w'', ev ++ evs)
      else
        (.error .notInList, w, [])

/-- Embeds `ObjectCollection.remove()`: `_check_read_only` on SELF only
(the reference collection's `_read_only` flag is never consulted), then
`_get_ref_collection_or_error()`, then the removal loop on the
reference collection. -/
def pyRemove (w : World) (a : Nat) : Except PyErr Unit × World × List Event :=
  let c := collAt w a
  if c.readOnly then
    (.error .readOnly, w, [])
  else
    match c.refColl with
    | none => (.error .noParent, w, [])
    | some ra => removeLoop w ra c.objs

/-- Lifts `add` to a heap address (used by `replace`, which calls
`ref.add(new_obj, index=obj_index)` on the reference collection). -/
def worldAdd (w : World) (a : Nat) (obj : Obj) (index : Int) :
    Except PyErr Unit × World × List Event :=
  let (r, c', ev) := pyAdd (collAt w a) obj index
  (r, w.set a c', ev)

/-- Embeds `ObjectCollection.replace(new_obj)`: `_check_read_only` on
self, `_get_ref_collection_or_error(get=True)` (reference collection
present, then exactly one selected object), `obj_index =
self.index()[0]`, `self.remove()`, and finally `ref.add(new_obj,
index=obj_index)`.  The removal is not undone when the final add
raises. -/
def pyReplace (w : World) (a : Nat) (newObj : Obj) :
    Except PyErr Unit × World × List Event :=
  let c := collAt w a
  if c.readOnly then
    (.error .readOnly, w, [])
  else
    match c.refColl with
    | none => (.error .noParent, w, [])
    | some ra =>
        if c.objs.length ≠ 1 then
          (.error .notSingleton, w, [])
        else
          match pyIndexSel w a with
          | .error e => (.error e, w, [])
          | .ok [] => (.error .indexError, w, [])
          | .ok (i :: _) =>
              match pyRemove w a with
              | (.ok _, w1, ev1) =>
                  let (r2, w2, ev2) := worldAdd w1 ra newObj (Int.ofNat i)
                  (r2, w2, ev1 ++ ev2)
              | (.error e, w1, ev1) => (.error e, w1, ev1)

/-- Embeds the chained Python expression
`col.sorted(key).filter(*preds, **cons).remove()`. -/
def sortedFilterRemove (w : World) (a : Nat) (key : Obj → Nat)
    (preds : List (Obj → Bool)) (cons : List (Nat × Nat)) :
    Except PyErr Unit × World × List Event :=
  match pySorted w a key with
  | (.ok b1, w1, _) =>
      match pyFilter w1 b1 preds cons with
      | (.ok b2, w2, _) => pyRemove w2 b2
      | (.error e, w2, ev) => (.error e, w2, ev)
  | (.error e, w1, ev) => (.error e, w1, ev)

/-- Reference class a fresh collection ends with after adding `l` to a
collection whose `_ref_class` is `rc`: the class of the first object
when `rc` was `None`. -/
def newRefClass (rc : Option Nat) (l : List Obj) : Option Nat :=
  match rc, l with
  | some t, _ => some t
  | none, [] => none
  | none, o :: _ => some o.cls

/-- Address the `_ref_collection` back-link of a subcollection of the
collection at `a` resolves to. -/
def resolveRef (w : World) (a : Nat) : Nat :=
  match (collAt w a).refColl with
  | none => a
  | some r => r

/-- Class condition under which adding every object of `l` passes the
`isinstance` check: against an established reference class all classes
must equal it; with a lazy reference class the list must be
class-homogeneous. -/
def classOk (rc : Option Nat) (l : List Obj) : Prop :=
  match rc with
  | some t => ∀ o ∈ l, o.cls = t
  | none => ∀ o ∈ l, ∀ o' ∈ l, o.cls = o'.cls

instance (rc : Option Nat) (l : List Obj) : Decidable (classOk rc l) := by
  unfold classOk
  cases rc <;> infer_instance

theorem classOk_none_sublist {l l' : List Obj}
    (hsub : ∀ o ∈ l', o ∈ l) (h : classOk none l) : classOk none l' :=
  fun o ho o' ho' => h o (hsub o ho) o' (hsub o' ho')

/-! World and `collAt` helper lemmas. -/

theorem collAt_append_left {w : World} {a : Nat} (h : a < w.length)
    (l : List Coll) : collAt (w ++ l) a = collAt w a := by
  simp [collAt, List.getD_eq_getElem?_getD, List.getElem?_append, h]

theorem collAt_append_self (w : World) (c : Coll) :
    collAt (w ++ [c]) w.length = c := by
  simp [collAt, List.getD_eq_getElem?_getD, List.getElem?_append]

theorem collAt_set_self {w : World} {a : Nat} (h : a < w.length) (c : Coll) :
    collAt (w.set a c) a = c := by
  simp [collAt, List.getD_eq_getElem?_getD, List.getElem?_set_self h]

theorem collAt_set_ne {w : World} {a b : Nat} (h : a ≠ b) (c : Coll) :
    collAt (w.set a c) b = collAt w b := by
  simp [collAt, List.getD_eq_getElem?_getD, List.getElem?_set_ne h]

theorem set_collAt_self {w : World} {a : Nat} (h : a < w.length) :
    w.set a (collAt w a) = w := by
  induction w generalizing a with
  | nil => simp at h
  | cons c w ih =>
      cases a with
      | zero => simp [collAt]
      | succ a =>
          simp only [List.length_cons, Nat.succ_lt_succ_iff] at h
          simp [List.set, collAt, List.getD_cons_succ, ih h, collAt] at *
          exact ih h

theorem set_append_left {w : World} {a : Nat} (h : a < w.length)
    (l : List Coll) (c : Coll) : (w ++ l).set a c = w.set a c ++ l := by
  induction w generalizing a with
  | nil => simp at h
  | cons d w ih =>
      cases a with
      | zero => simp
      | succ a =>
          simp only [List.length_cons, Nat.succ_lt_succ_iff] at h
          simp [List.set, ih h]

/-! Lemmas about `add` and the construction loop. -/

theorem pyAdd_append_ok {c : Coll} {o : Obj} (hro : c.readOnly = false)
    (hcls : ∀ t, c.refClass = some t → o.cls = t) (hmem : o ∉ c.objs) :
    pyAdd c o (-1) =
      (.ok (), { c with refClass := newRefClass c.refClass [o],
                        objs := c.objs ++ [o] },
       if c.cbAdd then [.added o] else []) := by
  cases hrc : c.refClass with
  | none => simp [pyAdd, hrc, hro, hmem, newRefClass]
  | some t =>
      have := hcls t hrc
      simp [pyAdd, hrc, hro, hmem, newRefClass, this]

theorem newRefClass_nil (rc : Option Nat) : newRefClass rc [] = rc := by
  cases rc <;> rfl

theorem newRefClass_cons (rc : Option Nat) (o : Obj) (rest : List Obj) :
    newRefClass (newRefClass rc [o]) rest = newRefClass rc (o :: rest) := by
  cases rc <;> cases rest <;> rfl

theorem pyInitLoop_ok : ∀ (l : List Obj) (c : Coll),
    c.readOnly = false → l.Nodup → (∀ o ∈ l, o ∉ c.objs) →
    classOk c.refClass l →
    pyInitLoop c l =
      (.ok (), { c with refClass := newRefClass c.refClass l,
                        objs := c.objs ++ l },
       if c.cbAdd then l.map Event.added else []) := by
  intro l
  induction l with
  | nil =>
      intro c hro _ _ _
      simp [pyInitLoop, newRefClass_nil]
  | cons o rest ih =>
      intro c hro hnd hmem hcls
      have hstep : pyAdd c o (-1) =
          (.ok (), { c with refClass := newRefClass c.refClass [o],
                            objs := c.objs ++ [o] },
           if c.cbAdd then [.added o] else []) := by
        apply pyAdd_append_ok hro
        · intro t ht
          cases hrc : c.refClass with
          | none => rw [hrc] at ht; exact absurd ht (by simp)
          | some t' =>
              rw [hrc] at ht
              injection ht with ht
              subst ht
              rw [hrc] at hcls
              exact hcls o (by simp)
        · exact hmem o (by simp)
      have hnd' : rest.Nodup := hnd.of_cons
      have honotin : o ∉ rest := (List.nodup_cons.mp hnd).1
      have hmem' : ∀ o' ∈ rest, o' ∉ c.objs ++ [o] := by
        intro o' ho'
        simp only [List.mem_append, List.mem_singleton]
        rintro (h | h)
        · exact hmem o' (by simp [ho']) h
        · exact honotin (h ▸ ho')
      have hcls' : classOk (newRefClass c.refClass [o]) rest := by
        cases hrc : c.refClass with
        | none =>
            rw [hrc] at hcls
            simp only [newRefClass]
            intro o' ho'
            exact hcls o' (by simp [ho']) o (by simp)
        | some t =>
            rw [hrc] at hcls
            simp only [newRefClass]
            intro o' ho'
            exact hcls o' (by simp [ho'])
      have ihres := ih
        { c with refClass := newRefClass c.refClass [o],
                 objs := c.objs ++ [o] } hro hnd' hmem' hcls'
      simp only [pyInitLoop, hstep, ihres]
      cases hca : c.cbAdd <;>
        simp [hca, newRefClass_cons, List.append_assoc]

theorem pyInit_ok (objects : List Obj) (cbAdd cbRemove readOnly : Bool)
    (refClass : Option Nat) (hnd : objects.Nodup)
    (hcls : classOk refClass objects) :
    pyInit objects cbAdd cbRemove readOnly refClass =
      (.ok (), { refClass := newRefClass refClass objects, objs := objects,
                 cbAdd := cbAdd, cbRemove := cbRemove, readOnly := readOnly,
                 refColl := none },
       if cbAdd then objects.map Event.added else []) := by
  have h := pyInitLoop_ok objects
    { refClass := refClass, objs := [], cbAdd := cbAdd, cbRemove := cbRemove,
      readOnly := false, refColl := none }
    rfl hnd (by simp) hcls
  simp [pyInit, h]

theorem createSubcollection_ok (w : World) (a : Nat) (sel : List Obj)
    (hnd : sel.Nodup) (hcls : classOk none sel) :
    createSubcollection w a sel =
      (.ok w.length,
       w ++ [{ refClass := newRefClass none sel, objs := sel, cbAdd := false,
               cbRemove := false, readOnly := false,
               refColl := some (resolveRef w a) }],
       []) := by
  have h := pyInit_ok sel false false false none hnd hcls
  simp [createSubcollection, h, resolveRef]

/-! Lemmas about `filter`, `sorted` and the removal loop. -/

theorem foldl_filter_preds (preds : List (Obj → Bool)) :
    ∀ (l : List Obj),
      preds.foldl (fun sel p => sel.filter p) l =
        l.filter (fun o => preds.all (fun p => p o)) := by
  induction preds with
  | nil => intro l; simp
  | cons p preds ih =>
      intro l
      simp only [List.foldl_cons, ih, List.filter_filter, List.all_cons]
      apply List.filter_congr
      intro o _
      simp [Bool.and_comm]

theorem foldl_filter_cons (cons : List (Nat × Nat)) :
    ∀ (l : List Obj),
      cons.foldl (fun sel c => sel.filter (fun o => o.getattr c.1 = c.2)) l =
        l.filter (fun o => cons.all (fun c => o.getattr c.1 = c.2)) := by
  induction cons with
  | nil => intro l; simp
  | cons c cons ih =>
      intro l
      simp only [List.foldl_cons, ih, List.filter_filter, List.all_cons]
      apply List.filter_congr
      intro o _
      simp [Bool.and_comm]

theorem pyFilter_selection (w : World) (a : Nat) (preds : List (Obj → Bool))
    (cons : List (Nat × Nat)) :
    pyFilter w a preds cons =
      createSubcollection w a
        ((collAt w a).objs.filter (matchesAll preds cons)) := by
  simp only [pyFilter, foldl_filter_preds, foldl_filter_cons,
    List.filter_filter, matchesAll]
  congr 1
  apply List.filter_congr
  intro o _
  rw [Bool.and_comm]
  rfl

theorem insertByKey_perm (key : Obj → Nat) (x : Obj) :
    ∀ (l : List Obj), (insertByKey key x l).Perm (x :: l) := by
  intro l
  induction l with
  | nil => exact List.Perm.refl _
  | cons y ys ih =>
      simp only [insertByKey]
      by_cases h : key y < key x
      · rw [if_pos h]
        exact (List.Perm.cons y ih).trans (List.Perm.swap x y ys)
      · rw [if_neg h]

theorem pySortList_perm (key : Obj → Nat) :
    ∀ (l : List Obj), (pySortList key l).Perm l := by
  intro l
  induction l with
  | nil => exact List.Perm.refl _
  | cons x xs ih =>
      simp only [pySortList, List.foldr_cons]
      exact (insertByKey_perm key x _).trans (List.Perm.cons x ih)

theorem removeLoop_ok : ∀ (sel : List Obj) (w : World) (ra : Nat),
    ra < w.length → sel.Nodup → (∀ o ∈ sel, o ∈ (collAt w ra).objs) →
    (collAt w ra).objs.Nodup →
    removeLoop w ra sel =
      (.ok (),
       w.set ra { collAt w ra with
                  objs := (collAt w ra).objs.filter (fun o => !sel.contains o) },
       if (collAt w ra).cbRemove then sel.map Event.removed else []) := by
  intro sel
  induction sel with
  | nil =>
      intro w ra hra _ _ _
      simp [removeLoop, set_collAt_self hra]
  | cons o rest ih =>
      intro w ra hra hnd hsub hndL
      have honotin : o ∉ rest := (List.nodup_cons.mp hnd).1
      have hmemo : o ∈ (collAt w ra).objs := hsub o (by simp)
      set rc := collAt w ra with hrc
      set w' := w.set ra { rc with objs := rc.objs.erase o } with hw'
      have hra' : ra < w'.length := by simpa [hw'] using hra
      have hcollAt' : collAt w' ra = { rc with objs := rc.objs.erase o } :=
        collAt_set_self hra _
      have hsub' : ∀ o' ∈ rest, o' ∈ (collAt w' ra).objs := by
        intro o' ho'
        rw [hcollAt']
        have hne : o' ≠ o := fun h => honotin (h ▸ ho')
        exact (List.mem_erase_of_ne hne).mpr (hsub o' (by simp [ho']))
      have hndL' : (collAt w' ra).objs.Nodup := by
        rw [hcollAt']
        exact hndL.erase o
      have ihres := ih w' ra hra' hnd.of_cons hsub' hndL'
      have hobjs : (rc.objs.erase o).filter (fun o' => !rest.contains o') =
          rc.objs.filter (fun o' => !(o :: rest).contains o') := by
        rw [hndL.erase_eq_filter o, List.filter_filter]
        apply List.filter_congr
        intro x _
        simp only [List.contains_cons, Bool.not_or]
        rw [Bool.and_comm]
        rfl
      simp only [removeLoop, hmemo, if_pos, ihres, hcollAt']
      rw [hw', List.set_set, hobjs, ← hrc]
      cases hcb : rc.cbRemove <;> simp [hcb]

deriving instance DecidableEq for Except

/-! ## Claim theorems for `timetools.py` -/

/-- C1: the specification claims `format(parse(s)) == s` for the
canonical timestamps `"2010,2012/1-3/1/0"`, `"2013/6/1,5/*"` and
`"2013/*/*/*"`.  On the code this fails for all three: the first parses
but `to_string` reaches `','.join` on a list of ints and raises
TypeError; the other two never parse because `_parse_fmt` skips
wildcard fields without appending anything, so `cls(*args)` is called
with 3 resp. 1 positional arguments and raises TypeError (outside the
`try` block of `from_string`).  The module's own tests
(`test_to_string`, `test_from_string`) and the `strp_datetimeslicer`
docstring expect the round trip to hold. -/
theorem roundtrip_claim_fails_on_code :
    fromString "2010,2012/1-3/1/0" =
      .ok { years := [2010, 2012], months := [1, 2, 3], days := [1],
            hours := [0], freq := some .hourly, interval := some .hourly } ∧
    toStringSlicer
      { years := [2010, 2012], months := [1, 2, 3], days := [1],
        hours := [0], freq := some .hourly, interval := some .hourly } =
      .error .joinTypeError ∧
    fromString "2013/6/1,5/*" = .error (.arityMismatch 3) ∧
    fromString "2013/*/*/*" = .error (.arityMismatch 1) := by
  refine ⟨by decide, by decide, by decide, by decide⟩

set_option maxRecDepth 100000 in
/-- C3: the specification claims that iterating the state parsed from
`"2010,2012/1-3/1/0"` yields the six hourly (start, start+1h) pairs for
Jan/Feb/Mar 1st, hour 0, of 2010 and 2012.  The parse does succeed, but
the source's `__iter__` passes the keyword `dstart` to
`dateutil.rrule.rrule`, whose parameter is spelled `dtstart`, so
`list(...)` raises TypeError before yielding anything (the module's own
`test__iter__` and docstring expect the six pairs).  With that one
keyword corrected (`iterSlicesDtstart`), the loop yields exactly the
six claimed pairs in ascending year/month order. -/
theorem iteration_claim_code_divergence :
    fromString "2010,2012/1-3/1/0" =
      .ok { years := [2010, 2012], months := [1, 2, 3], days := [1],
            hours := [0], freq := some .hourly, interval := some .hourly } ∧
    iterSlices
      { years := [2010, 2012], months := [1, 2, 3], days := [1],
        hours := [0], freq := some .hourly, interval := some .hourly } =
      .error (.unexpectedKeyword "dstart") ∧
    iterSlicesDtstart
      { years := [2010, 2012], months := [1, 2, 3], days := [1],
        hours := [0], freq := some .hourly, interval := some .hourly } =
      .ok [(⟨2010, 1, 1, 0⟩, ⟨2010, 1, 1, 1⟩), (⟨2010, 2, 1, 0⟩, ⟨2010, 2, 1, 1⟩),
           (⟨2010, 3, 1, 0⟩, ⟨2010, 3, 1, 1⟩), (⟨2012, 1, 1, 0⟩, ⟨2012, 1, 1, 1⟩),
           (⟨2012, 2, 1, 0⟩, ⟨2012, 2, 1, 1⟩), (⟨2012, 3, 1, 0⟩, ⟨2012, 3, 1, 1⟩)] := by
  refine ⟨by decide, by decide, by decide⟩

/-- C4: the specification claims `parse("2013/*/*/1")` fails with the
`InconsistentGranularity` error kind (the ValueError "found empty list
with non empty list(s) for shorter time spans").  The parse does fail,
but differently: `_parse_fmt` drops the two wildcard fields, so the
constructor is called with only 2 positional arguments and raises a
bare TypeError — outside the `try` of `from_string` — and the widening
check in `_change_timespan` is never reached.  The module's own
`test_invalid` expects a ValueError and would not catch this
TypeError. -/
theorem wildcard_then_concrete_parse_error_kind :
    fromString "2013/*/*/1" = .error (.arityMismatch 2) ∧
    (PyErr.arityMismatch 2).pyClass = "TypeError" ∧
    PyErr.inconsistentGranularity.pyClass = "ValueError" := by
  refine ⟨by decide, by decide, by decide⟩

/-- Shared success lemma for `filter`: under the collection invariants
(no duplicates, class homogeneity) the derived selection holds exactly
the records satisfying all predicates and constraints, in order, with
the back-link resolved through `_create_subcollection`. -/
theorem pyFilter_ok (w : World) (a : Nat)
    (preds : List (Obj → Bool)) (cons : List (Nat × Nat))
    (hnd : (collAt w a).objs.Nodup) (hhom : classOk none (collAt w a).objs) :
    pyFilter w a preds cons =
      (.ok w.length,
       w ++ [{ refClass :=
                 newRefClass none
                   ((collAt w a).objs.filter (matchesAll preds cons)),
               objs := (collAt w a).objs.filter (matchesAll preds cons),
               cbAdd := false, cbRemove := false, readOnly := false,
               refColl := some (resolveRef w a) }],
       []) := by
  rw [pyFilter_selection]
  exact createSubcollection_ok w a _ (hnd.filter _)
    (classOk_none_sublist (fun o ho => List.mem_of_mem_filter ho) hhom)

/-- Shared success lemma for `sorted`: the derived selection holds the
stably key-sorted records with the resolved back-link. -/
theorem pySorted_ok (w : World) (a : Nat) (key : Obj → Nat)
    (hnd : (collAt w a).objs.Nodup) (hhom : classOk none (collAt w a).objs) :
    pySorted w a key =
      (.ok w.length,
       w ++ [{ refClass := newRefClass none (pySortList key (collAt w a).objs),
               objs := pySortList key (collAt w a).objs,
               cbAdd := false, cbRemove := false, readOnly := false,
               refColl := some (resolveRef w a) }],
       []) := by
  have hperm := pySortList_perm key (collAt w a).objs
  exact createSubcollection_ok w a _ (hperm.nodup_iff.mpr hnd)
    (classOk_none_sublist (fun o ho => hperm.mem_iff.mp ho) hhom)

/-! ## Claim theorems for `datatypes.py` -/

/-- C2: `filter` returns a new collection whose records are exactly the
records of the original that satisfy the conjunction of all predicate
callables and all attribute=value equality constraints, in their
original order (in this Python 2 code base `filter` is eager, so each
keyword-loop lambda is applied inside its own iteration and every
constraint is enforced, also with two or more constraints).  The
hypotheses are the collection class invariants: no duplicate records
and class homogeneity. -/
theorem filter_selects_conjunction_in_order (w : World) (a : Nat)
    (preds : List (Obj → Bool)) (cons : List (Nat × Nat))
    (hnd : (collAt w a).objs.Nodup) (hhom : classOk none (collAt w a).objs) :
    pyFilter w a preds cons =
      (.ok w.length,
       w ++ [{ refClass :=
                 newRefClass none
                   ((collAt w a).objs.filter (matchesAll preds cons)),
               objs := (collAt w a).objs.filter (matchesAll preds cons),
               cbAdd := false, cbRemove := false, readOnly := false,
               refColl := some (resolveRef w a) }],
       []) :=
  pyFilter_ok w a preds cons hnd hhom

/-- Witness for C2 at a concrete collection with two equality
constraints: of the three records only the middle one satisfies both
`attr0 = 1` and `attr1 = 2`. -/
theorem filter_selects_conjunction_in_order_witness :
    pyFilter
      [{ refClass := some 0,
         objs := [{ cls := 0, attrs := [1, 1] }, { cls := 0, attrs := [1, 2] },
                  { cls := 0, attrs := [2, 2] }],
         cbAdd := false, cbRemove := false, readOnly := false,
         refColl := none }] 0 [] [(0, 1), (1, 2)] =
      (.ok 1,
       [{ refClass := some 0,
          objs := [{ cls := 0, attrs := [1, 1] }, { cls := 0, attrs := [1, 2] },
                   { cls := 0, attrs := [2, 2] }],
          cbAdd := false, cbRemove := false, readOnly := false,
          refColl := none },
        { refClass := some 0, objs := [{ cls := 0, attrs := [1, 2] }],
          cbAdd := false, cbRemove := false, readOnly := false,
          refColl := some 0 }],
       []) :=
  filter_selects_conjunction_in_order _ 0 [] [(0, 1), (1, 2)]
    (by decide) (by decide)

/-- C10: a `filter` call whose predicates and constraints match no
record returns an empty derived selection, and `remove` on that empty
selection succeeds, fires no remove hook and leaves every collection of
the world — in particular the parent — unchanged. -/
theorem empty_filter_remove_noop (w : World) (a : Nat)
    (preds : List (Obj → Bool)) (cons : List (Nat × Nat)) (ha : a < w.length)
    (hnd : (collAt w a).objs.Nodup) (hhom : classOk none (collAt w a).objs)
    (hnone : ∀ o ∈ (collAt w a).objs, matchesAll preds cons o = false) :
    pyFilter w a preds cons =
      (.ok w.length,
       w ++ [{ refClass := none, objs := [], cbAdd := false, cbRemove := false,
               readOnly := false, refColl := some (resolveRef w a) }],
       []) ∧
    pyRemove
      (w ++ [{ refClass := none, objs := [], cbAdd := false, cbRemove := false,
               readOnly := false, refColl := some (resolveRef w a) }])
      w.length =
      (.ok (),
       w ++ [{ refClass := none, objs := [], cbAdd := false, cbRemove := false,
               readOnly := false, refColl := some (resolveRef w a) }],
       []) ∧
    collAt
      (w ++ [{ refClass := none, objs := [], cbAdd := false, cbRemove := false,
               readOnly := false, refColl := some (resolveRef w a) }]) a =
      collAt w a := by
  have hempty : (collAt w a).objs.filter (matchesAll preds cons) = [] := by
    rw [List.filter_eq_nil_iff]
    intro o ho
    simp [hnone o ho]
  have h1 := pyFilter_ok w a preds cons hnd hhom
  rw [hempty] at h1
  refine ⟨h1, ?_, collAt_append_left ha _⟩
  simp [pyRemove, collAt_append_self, removeLoop]

/-- Witness for C10: a singleton collection filtered with a constraint
no record satisfies. -/
theorem empty_filter_remove_noop_witness :
    pyFilter
      [{ refClass := some 0, objs := [{ cls := 0, attrs := [1] }],
         cbAdd := false, cbRemove := true, readOnly := false,
         refColl := none }] 0 [] [(0, 7)] =
      (.ok 1,
       [{ refClass := some 0, objs := [{ cls := 0, attrs := [1] }],
          cbAdd := false, cbRemove := true, readOnly := false,
          refColl := none },
        { refClass := none, objs := [], cbAdd := false, cbRemove := false,
          readOnly := false, refColl := some 0 }],
       []) ∧
    pyRemove
      [{ refClass := some 0, objs := [{ cls := 0, attrs := [1] }],
         cbAdd := false, cbRemove := true, readOnly := false,
         refColl := none },
       { refClass := none, objs := [], cbAdd := false, cbRemove := false,
         readOnly := false, refColl := some 0 }] 1 =
      (.ok (),
       [{ refClass := some 0, objs := [{ cls := 0, attrs := [1] }],
          cbAdd := false, cbRemove := true, readOnly := false,
          refColl := none },
        { refClass := none, objs := [], cbAdd := false, cbRemove := false,
          readOnly := false, refColl := some 0 }],
       []) ∧
    collAt
      [{ refClass := some 0, objs := [{ cls := 0, attrs := [1] }],
         cbAdd := false, cbRemove := true, readOnly := false,
         refColl := none },
       { refClass := none, objs := [], cbAdd := false, cbRemove := false,
         readOnly := false, refColl := some 0 }] 0 =
      { refClass := some 0, objs := [{ cls := 0, attrs := [1] }],
        cbAdd := false, cbRemove := true, readOnly := false,
        refColl := none } :=
  empty_filter_remove_noop
    [{ refClass := some 0, objs := [{ cls := 0, attrs := [1] }],
       cbAdd := false, cbRemove := true, readOnly := false,
       refColl := none }] 0 [] [(0, 7)]
    (by decide) (by decide) (by decide) (by decide)

/-- C7: constructing a collection with `read_only=True` from a valid
initial record list succeeds — every record is added as if
individually, the add hook firing per record, because `_read_only` is
assigned only after the loop — and on the resulting collection every
direct `add`, `remove` or `replace` call fails with the read-only
ValueError (`remove`/`replace` also leave the world unchanged). -/
theorem readonly_collection_behavior (objs : List Obj) (ca cr : Bool)
    (hnd : objs.Nodup) (hhom : classOk none objs) :
    pyInit objs ca cr true none =
      (.ok (), { refClass := newRefClass none objs, objs := objs, cbAdd := ca,
                 cbRemove := cr, readOnly := true, refColl := none },
       if ca then objs.map Event.added else []) ∧
    (∀ (obj : Obj) (idx : Int),
       (pyAdd { refClass := newRefClass none objs, objs := objs, cbAdd := ca,
                cbRemove := cr, readOnly := true, refColl := none } obj idx).1 =
         .error .readOnly) ∧
    (∀ (w : World) (a : Nat),
       collAt w a = { refClass := newRefClass none objs, objs := objs,
                      cbAdd := ca, cbRemove := cr, readOnly := true,
                      refColl := none } →
       pyRemove w a = (.error .readOnly, w, []) ∧
       ∀ newObj, pyReplace w a newObj = (.error .readOnly, w, [])) := by
  refine ⟨pyInit_ok objs ca cr true none hnd hhom, ?_, ?_⟩
  · intro obj idx
    cases h : newRefClass none objs <;> simp [pyAdd, h]
  · intro w a hcoll
    constructor
    · simp [pyRemove, hcoll]
    · intro newObj
      simp [pyReplace, hcoll]

/-- Witness for C7: a one-record read-only collection with both hooks
set; `add`, `remove` and `replace` all fail with the read-only
ValueError. -/
theorem readonly_collection_behavior_witness :
    pyInit [{ cls := 0, attrs := [1] }] true true true none =
      (.ok (), { refClass := some 0, objs := [{ cls := 0, attrs := [1] }],
                 cbAdd := true, cbRemove := true, readOnly := true,
                 refColl := none },
       [Event.added { cls := 0, attrs := [1] }]) ∧
    (pyAdd { refClass := some 0, objs := [{ cls := 0, attrs := [1] }],
             cbAdd := true, cbRemove := true, readOnly := true,
             refColl := none } { cls := 0, attrs := [2] } (-1)).1 =
      .error .readOnly ∧
    pyRemove
      [{ refClass := some 0, objs := [{ cls := 0, attrs := [1] }],
         cbAdd := true, cbRemove := true, readOnly := true,
         refColl := none }] 0 =
      (.error .readOnly,
       [{ refClass := some 0, objs := [{ cls := 0, attrs := [1] }],
          cbAdd := true, cbRemove := true, readOnly := true,
          refColl := none }], []) ∧
    pyReplace
      [{ refClass := some 0, objs := [{ cls := 0, attrs := [1] }],
         cbAdd := true, cbRemove := true, readOnly := true,
         refColl := none }] 0 { cls := 0, attrs := [3] } =
      (.error .readOnly,
       [{ refClass := some 0, objs := [{ cls := 0, attrs := [1] }],
          cbAdd := true, cbRemove := true, readOnly := true,
          refColl := none }], []) := by
  have h := readonly_collection_behavior [{ cls := 0, attrs := [1] }]
    true true (by decide) (by decide)
  exact ⟨h.1, h.2.1 _ _, (h.2.2 _ 0 (by decide)).1, (h.2.2 _ 0 (by decide)).2 _⟩

/-- C8: on a non-read-only collection whose reference class is
established and whose records all belong to it, `add` of a record of a
different class always fails with the type-mismatch TypeError, and
`add` of a record equal to one already present always fails with the
duplicate ValueError; in both cases the collection state is unchanged
and no hook fires. -/
theorem add_wrong_type_or_duplicate_fails (c : Coll) (rc : Nat)
    (obj dupObj : Obj) (idx1 idx2 : Int)
    (hro : c.readOnly = false) (hrc : c.refClass = some rc)
    (hinv : ∀ o ∈ c.objs, o.cls = rc) :
    (obj.cls ≠ rc → pyAdd c obj idx1 = (.error (.typeMismatch obj.cls rc), c, [])) ∧
    (dupObj ∈ c.objs → pyAdd c dupObj idx2 = (.error .duplicate, c, [])) := by
  constructor
  · intro h
    simp [pyAdd, hrc, hro, h]
  · intro h
    simp [pyAdd, hrc, hro, hinv dupObj h, h]

/-- Witness for C8: a singleton collection of class 0; adding a class-1
record fails with TypeError, re-adding the stored record (an equal
value) fails with the duplicate ValueError. -/
theorem add_wrong_type_or_duplicate_fails_witness :
    (pyAdd { refClass := some 0, objs := [{ cls := 0, attrs := [5] }],
             cbAdd := true, cbRemove := true, readOnly := false,
             refColl := none } { cls := 1, attrs := [] } (-1)) =
      (.error (.typeMismatch 1 0),
       { refClass := some 0, objs := [{ cls := 0, attrs := [5] }],
         cbAdd := true, cbRemove := true, readOnly := false,
         refColl := none }, []) ∧
    (pyAdd { refClass := some 0, objs := [{ cls := 0, attrs := [5] }],
             cbAdd := true, cbRemove := true, readOnly := false,
             refColl := none } { cls := 0, attrs := [5] } 0) =
      (.error .duplicate,
       { refClass := some 0, objs := [{ cls := 0, attrs := [5] }],
         cbAdd := true, cbRemove := true, readOnly := false,
         refColl := none }, []) := by
  have h := add_wrong_type_or_duplicate_fails
    { refClass := some 0, objs := [{ cls := 0, attrs := [5] }],
      cbAdd := true, cbRemove := true, readOnly := false, refColl := none }
    0 { cls := 1, attrs := [] } { cls := 0, attrs := [5] } (-1) 0
    rfl rfl (by decide)
  exact ⟨h.1 (by decide), h.2 (by decide)⟩

/-- C6 counterexample: the claim says that `remove` on a derived
selection whose parent is read-only fails with the read-only ValueError
and leaves the parent unchanged.  On the code this is false at this
explicit input: a read-only two-record collection is built through the
constructor, `filter(attr0=1)` selects the first record, and `remove`
on the selection raises nothing and deletes the record from the
read-only parent — `remove` consults only the selection's own
`_read_only` flag, and selections created by `filter` are never
read-only.  (The sole test covering this, `test__check_read_only`, does
not catch it: its `assertRaises` block contains a second statement,
`col.add(...)`, which raises the expected ValueError.) -/
theorem readonly_parent_remove_claim_counterexample :
    ¬ (let w0 := (worldCreate [] [{ cls := 0, attrs := [1] },
                                  { cls := 0, attrs := [2] }]
                    false false true none).2.1
       let w1 := (pyFilter w0 0 [] [(0, 1)]).2.1
       (pyRemove w1 1).1 = .error .readOnly ∧
       (collAt (pyRemove w1 1).2.1 0).objs = (collAt w1 0).objs) := by
  decide

/-- C6 amended: `remove` on a derived selection checks only the
selection's own read-only flag; a selection produced by `filter`/`get`
is never read-only, so even when the parent collection is read-only,
`remove` succeeds, removes every selected record from the parent's
storage and fires the parent's remove hook per record — the parent's
record sequence is changed whenever the selection is non-empty. -/
theorem readonly_parent_remove_succeeds (w : World) (a ra : Nat)
    (hra : ra < w.length)
    (hselro : (collAt w a).readOnly = false)
    (href : (collAt w a).refColl = some ra)
    (hpro : (collAt w ra).readOnly = true)
    (hnd : (collAt w a).objs.Nodup)
    (hsub : ∀ o ∈ (collAt w a).objs, o ∈ (collAt w ra).objs)
    (hndL : (collAt w ra).objs.Nodup) :
    pyRemove w a =
      (.ok (),
       w.set ra { collAt w ra with
                  objs := (collAt w ra).objs.filter
                            (fun o => !(collAt w a).objs.contains o) },
       if (collAt w ra).cbRemove then (collAt w a).objs.map Event.removed
       else []) := by
  have h := removeLoop_ok (collAt w a).objs w ra hra hnd hsub hndL
  simp [pyRemove, hselro, href, h]

/-- Witness for the amended C6: a read-only two-record parent at
address 0 with a remove hook, a non-read-only singleton selection at
address 1; `remove` succeeds, fires the hook and shrinks the
parent. -/
theorem readonly_parent_remove_succeeds_witness :
    pyRemove
      [{ refClass := some 0,
         objs := [{ cls := 0, attrs := [1] }, { cls := 0, attrs := [2] }],
         cbAdd := false, cbRemove := true, readOnly := true,
         refColl := none },
       { refClass := some 0, objs := [{ cls := 0, attrs := [1] }],
         cbAdd := false, cbRemove := false, readOnly := false,
         refColl := some 0 }] 1 =
      (.ok (),
       [{ refClass := some 0, objs := [{ cls := 0, attrs := [2] }],
          cbAdd := false, cbRemove := true, readOnly := true,
          refColl := none },
        { refClass := some 0, objs := [{ cls := 0, attrs := [1] }],
          cbAdd := false, cbRemove := false, readOnly := false,
          refColl := some 0 }],
       [Event.removed { cls := 0, attrs := [1] }]) :=
  readonly_parent_remove_succeeds
    [{ refClass := some 0,
       objs := [{ cls := 0, attrs := [1] }, { cls := 0, attrs := [2] }],
       cbAdd := false, cbRemove := true, readOnly := true,
       refColl := none },
     { refClass := some 0, objs := [{ cls := 0, attrs := [1] }],
       cbAdd := false, cbRemove := false, readOnly := false,
       refColl := some 0 }] 1 0
    (by decide) (by decide) (by decide) (by decide) (by decide)
    (by decide) (by decide)

theorem findIdx_some_of_mem {o : Obj} {l : List Obj} (h : o ∈ l) :
    ∃ i, l.findIdx? (fun x => x == o) = some i :=
  Option.isSome_iff_exists.mp
    (by rw [List.findIdx?_isSome]; exact List.any_eq_true.mpr ⟨o, h, by simp⟩)

/-- C9: `replace` on a singleton selection is not atomic on failure.
`replace` captures the selected record's index in the parent, calls
`self.remove()` — which deletes the record from the parent and fires
the parent's remove hook — and only then calls `ref.add(new_obj,
index)`.  When that add fails (here: the replacement is already present
elsewhere in the parent, the duplicate ValueError), the call raises but
the parent has already lost the selected record. -/
theorem replace_not_atomic_on_failed_add (w : World) (a ra : Nat)
    (obj newObj : Obj) (rc : Nat)
    (hra : ra < w.length)
    (hsel : (collAt w a).objs = [obj])
    (hselro : (collAt w a).readOnly = false)
    (href : (collAt w a).refColl = some ra)
    (hmem : obj ∈ (collAt w ra).objs)
    (hprc : (collAt w ra).refClass = some rc)
    (hcls : newObj.cls = rc)
    (hpro : (collAt w ra).readOnly = false)
    (hdup : newObj ∈ (collAt w ra).objs.erase obj) :
    pyReplace w a newObj =
      (.error .duplicate,
       w.set ra { collAt w ra with objs := (collAt w ra).objs.erase obj },
       if (collAt w ra).cbRemove then [Event.removed obj] else []) ∧
    (collAt w ra).objs.erase obj ≠ (collAt w ra).objs := by
  obtain ⟨i, hi⟩ := findIdx_some_of_mem hmem
  constructor
  · show pyReplace w a newObj =
      (.error .duplicate,
       w.set ra { refClass := (collAt w ra).refClass,
                  objs := (collAt w ra).objs.erase obj,
                  cbAdd := (collAt w ra).cbAdd,
                  cbRemove := (collAt w ra).cbRemove,
                  readOnly := (collAt w ra).readOnly,
                  refColl := (collAt w ra).refColl },
       if (collAt w ra).cbRemove then [Event.removed obj] else [])
    have hidx : pyIndexSel w a = .ok [i] := by
      simp only [pyIndexSel, href, hsel]
      simp [hi, List.mapM, List.mapM.loop]
    have hrem : pyRemove w a =
        (.ok (),
         w.set ra { refClass := (collAt w ra).refClass,
                    objs := (collAt w ra).objs.erase obj,
                    cbAdd := (collAt w ra).cbAdd,
                    cbRemove := (collAt w ra).cbRemove,
                    readOnly := (collAt w ra).readOnly,
                    refColl := (collAt w ra).refColl },
         if (collAt w ra).cbRemove then [Event.removed obj] else []) := by
      simp [pyRemove, hselro, href, hsel, removeLoop, hmem]
    have hpar :
        collAt (w.set ra { refClass := (collAt w ra).refClass,
                           objs := (collAt w ra).objs.erase obj,
                           cbAdd := (collAt w ra).cbAdd,
                           cbRemove := (collAt w ra).cbRemove,
                           readOnly := (collAt w ra).readOnly,
                           refColl := (collAt w ra).refColl }) ra =
          { refClass := (collAt w ra).refClass,
            objs := (collAt w ra).objs.erase obj,
            cbAdd := (collAt w ra).cbAdd,
            cbRemove := (collAt w ra).cbRemove,
            readOnly := (collAt w ra).readOnly,
            refColl := (collAt w ra).refColl } :=
      collAt_set_self hra _
    have hadd :
        pyAdd { refClass := (collAt w ra).refClass,
                objs := (collAt w ra).objs.erase obj,
                cbAdd := (collAt w ra).cbAdd,
                cbRemove := (collAt w ra).cbRemove,
                readOnly := (collAt w ra).readOnly,
                refColl := (collAt w ra).refColl }
          newObj (i : Int) =
          (.error .duplicate,
           { refClass := (collAt w ra).refClass,
             objs := (collAt w ra).objs.erase obj,
             cbAdd := (collAt w ra).cbAdd,
             cbRemove := (collAt w ra).cbRemove,
             readOnly := (collAt w ra).readOnly,
             refColl := (collAt w ra).refColl }, []) := by
      simp [pyAdd, hprc, hpro, hcls, hdup]
    simp [pyReplace, hselro, href, hsel, hidx, hrem, worldAdd, hpar, hadd,
      List.set_set]
  · intro h
    have hlen := congrArg List.length h
    rw [List.length_erase_of_mem hmem] at hlen
    have hpos : 0 < (collAt w ra).objs.length :=
      List.length_pos.mpr (List.ne_nil_of_mem hmem)
    omega

/-- Witness for C9: parent `[x, y]` at address 0, singleton selection
of `x` at address 1; replacing `x` by the value `y` (already present
elsewhere in the parent) raises the duplicate ValueError, yet the
parent has already been shrunk to `[y]`. -/
theorem replace_not_atomic_on_failed_add_witness :
    pyReplace
      [{ refClass := some 0,
         objs := [{ cls := 0, attrs := [1] }, { cls := 0, attrs := [2] }],
         cbAdd := false, cbRemove := true, readOnly := false,
         refColl := none },
       { refClass := some 0, objs := [{ cls := 0, attrs := [1] }],
         cbAdd := false, cbRemove := false, readOnly := false,
         refColl := some 0 }] 1 { cls := 0, attrs := [2] } =
      (.error .duplicate,
       [{ refClass := some 0, objs := [{ cls := 0, attrs := [2] }],
          cbAdd := false, cbRemove := true, readOnly := false,
          refColl := none },
        { refClass := some 0, objs := [{ cls := 0, attrs := [1] }],
          cbAdd := false, cbRemove := false, readOnly := false,
          refColl := some 0 }],
       [Event.removed { cls := 0, attrs := [1] }]) ∧
    ([{ cls := 0, attrs := [2] }] : List Obj) ≠
      [{ cls := 0, attrs := [1] }, { cls := 0, attrs := [2] }] :=
  replace_not_atomic_on_failed_add
    [{ refClass := some 0,
       objs := [{ cls := 0, attrs := [1] }, { cls := 0, attrs := [2] }],
       cbAdd := false, cbRemove := true, readOnly := false,
       refColl := none },
     { refClass := some 0, objs := [{ cls := 0, attrs := [1] }],
       cbAdd := false, cbRemove := false, readOnly := false,
       refColl := some 0 }] 1 0
    { cls := 0, attrs := [1] } { cls := 0, attrs := [2] } 0
    (by decide) (by decide) (by decide) (by decide) (by decide) (by decide)
    (by decide) (by decide) (by decide)

/-- C5: for a root collection (no parent back-link), the chain
`sorted(key).filter(...).remove()` removes exactly the records
satisfying the filter conditions from the ROOT collection — not from
the intermediate sorted selection — because `_create_subcollection`
points each derived selection's `_ref_collection` at `self` when `self`
has no reference collection and at `self._ref_collection` otherwise, so
both derived selections link directly to the root (`refColl = some a`
in both appended collections below).  The root keeps the non-matching
records in their original order; the intermediate selection is
unchanged by the removal. -/
theorem chained_selection_remove_hits_root (w : World) (a : Nat)
    (key : Obj → Nat) (preds : List (Obj → Bool)) (cons : List (Nat × Nat))
    (ha : a < w.length) (hroot : (collAt w a).refColl = none)
    (hnd : (collAt w a).objs.Nodup) (hhom : classOk none (collAt w a).objs) :
    sortedFilterRemove w a key preds cons =
      (.ok (),
       (w ++
        ([{ refClass := newRefClass none (pySortList key (collAt w a).objs),
            objs := pySortList key (collAt w a).objs,
            cbAdd := false, cbRemove := false, readOnly := false,
            refColl := some a },
          { refClass :=
              newRefClass none
                ((pySortList key (collAt w a).objs).filter
                   (matchesAll preds cons)),
            objs := (pySortList key (collAt w a).objs).filter
                      (matchesAll preds cons),
            cbAdd := false, cbRemove := false, readOnly := false,
            refColl := some a }] : List Coll)).set a
        { collAt w a with
          objs := (collAt w a).objs.filter
                    (fun o => !matchesAll preds cons o) },
       if (collAt w a).cbRemove then
         ((pySortList key (collAt w a).objs).filter
            (matchesAll preds cons)).map Event.removed
       else []) := by
  have hperm := pySortList_perm key (collAt w a).objs
  have hres : resolveRef w a = a := by simp [resolveRef, hroot]
  have h1 := pySorted_ok w a key hnd hhom
  rw [hres] at h1
  set c1 : Coll :=
    { refClass := newRefClass none (pySortList key (collAt w a).objs),
      objs := pySortList key (collAt w a).objs,
      cbAdd := false, cbRemove := false, readOnly := false,
      refColl := some a } with hc1
  set w1 : World := w ++ [c1] with hw1
  have e1 : collAt w1 w.length = c1 := collAt_append_self w c1
  have hnd1 : (collAt w1 w.length).objs.Nodup := by
    rw [e1]
    exact hperm.nodup_iff.mpr hnd
  have hhom1 : classOk none (collAt w1 w.length).objs := by
    rw [e1]
    exact classOk_none_sublist (fun o ho => hperm.mem_iff.mp ho) hhom
  have hres1 : resolveRef w1 w.length = a := by simp [resolveRef, e1]
  have h2 := pyFilter_ok w1 w.length preds cons hnd1 hhom1
  rw [hres1, e1] at h2
  set sel : List Obj :=
    (pySortList key (collAt w a).objs).filter (matchesAll preds cons)
    with hseldef
  set c2 : Coll :=
    { refClass := newRefClass none sel, objs := sel,
      cbAdd := false, cbRemove := false, readOnly := false,
      refColl := some a } with hc2
  set w2 : World := w1 ++ [c2] with hw2
  have e2 : collAt w2 w1.length = c2 := collAt_append_self w1 c2
  have hlen1 : w1.length = w.length + 1 := by simp [hw1]
  have ea : collAt w2 a = collAt w a := by
    rw [hw2, hw1, collAt_append_left (by simp; omega) [c2],
      collAt_append_left ha [c1]]
  have ha2 : a < w2.length := by
    simp [hw2, hw1]
    omega
  have hndsel : sel.Nodup := (hperm.nodup_iff.mpr hnd).filter _
  have hsub : ∀ o ∈ sel, o ∈ (collAt w2 a).objs := by
    intro o ho
    rw [ea]
    exact hperm.mem_iff.mp (List.mem_of_mem_filter ho)
  have hndL : (collAt w2 a).objs.Nodup := by rw [ea]; exact hnd
  have h3 := removeLoop_ok sel w2 a ha2 hndsel hsub hndL
  rw [ea] at h3
  have hfilt : (collAt w a).objs.filter (fun o => !sel.contains o) =
      (collAt w a).objs.filter (fun o => !matchesAll preds cons o) := by
    apply List.filter_congr
    intro x hx
    have : sel.contains x = matchesAll preds cons x := by
      rw [Bool.eq_iff_iff]
      constructor
      · intro hcont
        have hxsel : x ∈ sel := List.elem_iff.mp hcont
        exact (List.mem_filter.mp hxsel).2
      · intro hm
        apply List.elem_iff.mpr
        exact List.mem_filter.mpr ⟨hperm.mem_iff.mpr hx, hm⟩
    rw [this]
  rw [hfilt] at h3
  have hrem : pyRemove w2 w1.length =
      (.ok (),
       w2.set a
         { collAt w a with
           objs := (collAt w a).objs.filter
                     (fun o => !matchesAll preds cons o) },
       if (collAt w a).cbRemove then sel.map Event.removed else []) := by
    simp only [pyRemove, e2, hc2]
    exact h3
  simp only [sortedFilterRemove, h1, h2, hrem]
  rw [hw2, hw1]
  simp [List.append_assoc]

/-- Witness for C5: root `[z3, z2, z1]` (attr0 descending) with a
remove hook; `sorted(attr0).filter(attr0=1).remove()` deletes `z1` from
the root (leaving `[z3, z2]` in original order), fires the root's
remove hook once, and leaves the intermediate sorted selection
`[z1, z2, z3]` untouched; both derived selections carry
`refColl = some 0`, the root's address. -/
theorem chained_selection_remove_hits_root_witness :
    sortedFilterRemove
      [{ refClass := some 0,
         objs := [{ cls := 0, attrs := [3] }, { cls := 0, attrs := [2] },
                  { cls := 0, attrs := [1] }],
         cbAdd := false, cbRemove := true, readOnly := false,
         refColl := none }]
      0 (fun o => o.getattr 0) [] [(0, 1)] =
      (.ok (),
       [{ refClass := some 0,
          objs := [{ cls := 0, attrs := [3] }, { cls := 0, attrs := [2] }],
          cbAdd := false, cbRemove := true, readOnly := false,
          refColl := none },
        { refClass := some 0,
          objs := [{ cls := 0, attrs := [1] }, { cls := 0, attrs := [2] },
                   { cls := 0, attrs := [3] }],
          cbAdd := false, cbRemove := false, readOnly := false,
          refColl := some 0 },
        { refClass := some 0, objs := [{ cls := 0, attrs := [1] }],
          cbAdd := false, cbRemove := false, readOnly := false,
          refColl := some 0 }],
       [Event.removed { cls := 0, attrs := [1] }]) :=
  chained_selection_remove_hits_root
    [{ refClass := some 0,
       objs := [{ cls := 0, attrs := [3] }, { cls := 0, attrs := [2] },
                { cls := 0, attrs := [1] }],
       cbAdd := false, cbRemove := true, readOnly := false,
       refColl := none }]
    0 (fun o => o.getattr 0) [] [(0, 1)]
    (by decide) (by decide) (by decide) (by decide)
